import Mathlib

set_option maxRecDepth 100000

/-!
Verification of the core logic of an RP2040 A/B firmware bootloader.

Shallow embedding of:
  * `crispy-common/src/boot_fsm.rs`  (bank-selection FSM),
  * `crispy-common/src/protocol.rs`  (BootData record and protocol types),
  * `crispy-common/src/flash.rs`     (bitwise reference CRC-32),
  * `crispy-common/src/cobs.rs`      (COBS encode/decode, std and heapless),
  * `crispy-bootloader/src/flash.rs` (chunked CRC-32 over flash),
  * `crispy-bootloader/src/boot.rs`  (bank validation, selection, update trigger),
  * `crispy-bootloader/src/update.rs` (update-mode command handlers).

Machine integers (`u8`, `u32`) are modelled as `Nat`; where the Rust code can
wrap (the `u8` boot-attempt counters), the increment is taken `% 256`.  Flash
and RAM are modelled as a byte function `Nat → Nat`; a hardware byte read is
the value `% 256`.
-/

/-! ## Constants (crispy-common/src/protocol.rs) -/

def FLASH_BASE : Nat := 0x10000000

def FW_A_ADDR : Nat := 0x10010000

def FW_B_ADDR : Nat := 0x100D0000

def BOOT_DATA_ADDR : Nat := 0x10190000

def FW_BANK_SIZE : Nat := 768 * 1024

def RAM_UPDATE_FLAG_ADDR : Nat := 0x2003BFF0

def RAM_UPDATE_MAGIC : Nat := 0x0FDA7E00

def FLASH_SECTOR_SIZE : Nat := 4096

def FLASH_PAGE_SIZE : Nat := 256

def BOOT_DATA_MAGIC : Nat := 0xB007DA7A

def MAX_DATA_BLOCK_SIZE : Nat := 1024

/-! ## BootData (crispy-common/src/protocol.rs) -/

structure BootData where
  magic : Nat
  active_bank : Nat
  confirmed : Nat
  boot_attempts : Nat
  reserved0 : Nat
  version_a : Nat
  version_b : Nat
  crc_a : Nat
  crc_b : Nat
  size_a : Nat
  size_b : Nat
deriving DecidableEq

def BootData.default_new : BootData :=
  { magic := BOOT_DATA_MAGIC, active_bank := 0, confirmed := 0, boot_attempts := 0,
    reserved0 := 0, version_a := 0, version_b := 0, crc_a := 0, crc_b := 0,
    size_a := 0, size_b := 0 }

def BootData.is_valid (bd : BootData) : Bool :=
  bd.magic == BOOT_DATA_MAGIC

/-! ## Protocol response types (crispy-common/src/protocol.rs) -/

inductive AckStatus where
  | Ok | CrcError | FlashError | BadCommand | BadState | BankInvalid
deriving DecidableEq

inductive BootState where
  | Idle | UpdateMode | Receiving
deriving DecidableEq

inductive Response where
  | Ack (status : AckStatus)
  | Status (active_bank version_a version_b : Nat) (state : BootState)
deriving DecidableEq

/-! ## Boot bank selection FSM (crispy-common/src/boot_fsm.rs) -/

def MAX_BOOT_ATTEMPTS : Nat := 3

structure BankInfo where
  addr : Nat
  crc : Nat
  size : Nat
  bank_id : Nat
deriving DecidableEq

structure BankValidation where
  crc_valid : Bool
  basic_valid : Bool
deriving DecidableEq

def BankValidation.default : BankValidation :=
  { crc_valid := false, basic_valid := false }

structure BankPair where
  primary : BankInfo
  primary_validation : BankValidation
  fallback : BankInfo
  fallback_validation : BankValidation
deriving DecidableEq

/-- `toggle_bank` — identical private copies live in `boot_fsm.rs` and in
`crispy-bootloader/src/boot.rs`. -/
def toggle_bank (bank : Nat) : Nat :=
  if bank = 0 then 1 else 0

/-- `bank_metadata` returns `(crc, size)` for a bank — identical private copies
live in `boot_fsm.rs` and in `crispy-bootloader/src/boot.rs`. -/
def bank_metadata (bd : BootData) (bank : Nat) : Nat × Nat :=
  if bank = 0 then (bd.crc_a, bd.size_a) else (bd.crc_b, bd.size_b)

def BankPair.new (active_bank fw_a_addr fw_b_addr : Nat) (bd : BootData) : BankPair :=
  let fallback_bank := toggle_bank active_bank
  let primary_addr := if active_bank = 0 then fw_a_addr else fw_b_addr
  let fallback_addr := if active_bank = 0 then fw_b_addr else fw_a_addr
  let pm := bank_metadata bd active_bank
  let fm := bank_metadata bd fallback_bank
  { primary := { addr := primary_addr, crc := pm.1, size := pm.2, bank_id := active_bank },
    primary_validation := BankValidation.default,
    fallback := { addr := fallback_addr, crc := fm.1, size := fm.2, bank_id := fallback_bank },
    fallback_validation := BankValidation.default }

def BankPair.with_validation (p : BankPair) (pv fv : BankValidation) : BankPair :=
  { p with primary_validation := pv, fallback_validation := fv }

structure BootDecision where
  flash_addr : Nat
  active_bank : Nat
  boot_attempts : Nat
  confirmed : Nat
deriving DecidableEq

def BootDecision.apply_to (d : BootDecision) (bd : BootData) : BootData :=
  { bd with active_bank := d.active_bank, boot_attempts := d.boot_attempts,
            confirmed := d.confirmed }

inductive BootStrategy where
  | PrimaryWithCrc | FallbackWithCrc | PrimaryBasic | FallbackBasic
deriving DecidableEq

def BOOT_STRATEGIES : List BootStrategy :=
  [BootStrategy.PrimaryWithCrc, BootStrategy.FallbackWithCrc,
   BootStrategy.PrimaryBasic, BootStrategy.FallbackBasic]

def needs_rollback (bd : BootData) : Bool :=
  decide (MAX_BOOT_ATTEMPTS ≤ bd.boot_attempts) && decide (bd.confirmed = 0)

/-- `try_boot_strategy`; the Rust match guards that fall through to `None`
become `if`/`else none`. `current_attempts + 1` is a `u8` add, hence `% 256`. -/
def try_boot_strategy (strategy : BootStrategy) (banks : BankPair)
    (current_attempts : Nat) : Option BootDecision :=
  match strategy with
  | BootStrategy.PrimaryWithCrc =>
    if banks.primary_validation.crc_valid then
      some { flash_addr := banks.primary.addr, active_bank := banks.primary.bank_id,
             boot_attempts := (current_attempts + 1) % 256, confirmed := 0 }
    else none
  | BootStrategy.FallbackWithCrc =>
    if banks.fallback_validation.crc_valid then
      some { flash_addr := banks.fallback.addr, active_bank := banks.fallback.bank_id,
             boot_attempts := 1, confirmed := 0 }
    else none
  | BootStrategy.PrimaryBasic =>
    if banks.primary_validation.basic_valid then
      some { flash_addr := banks.primary.addr, active_bank := banks.primary.bank_id,
             boot_attempts := (current_attempts + 1) % 256, confirmed := 0 }
    else none
  | BootStrategy.FallbackBasic =>
    if banks.fallback_validation.basic_valid then
      some { flash_addr := banks.fallback.addr, active_bank := banks.fallback.bank_id,
             boot_attempts := 1, confirmed := 0 }
    else none

/-- `select_boot_bank_fsm`: rollback pre-step (attempts reset only — the bank
toggle is not performed here), then the four strategies in priority order via
`find_map`, with the primary-anyway default. -/
def select_boot_bank_fsm (bd : BootData) (banks : BankPair) : BootDecision :=
  let boot_attempts := if needs_rollback bd then 0 else bd.boot_attempts
  match BOOT_STRATEGIES.findSome?
      (fun strategy => try_boot_strategy strategy banks boot_attempts) with
  | some d => d
  | none =>
    { flash_addr := banks.primary.addr, active_bank := banks.primary.bank_id,
      boot_attempts := (boot_attempts + 1) % 256, confirmed := 0 }

/-! ## Flash / RAM environment

Memory-mapped state: a byte function for the XIP flash window and RAM, the
persisted BootData record (the raw 32-byte sector image is abstracted to the
record itself), and the linker-provided RAM execution bounds
(`__fw_ram_start` / `__fw_ram_end`). -/

structure FlashEnv where
  mem : Nat → Nat
  boot : BootData
  ram_start : Nat
  ram_end : Nat

/-- A hardware byte read (`*const u8` / `read_volatile`): low 8 bits. -/
def readByte (mem : Nat → Nat) (a : Nat) : Nat :=
  mem a % 256

/-- Consecutive bytes `[addr, addr+n)`, as read over the XIP window
(`flash_read` in crispy-bootloader/src/flash.rs). -/
def readRangeM (mem : Nat → Nat) (addr n : Nat) : List Nat :=
  (List.range n).map fun i => readByte mem (addr + i)

/-- A `u32` read at `addr` (little-endian, as `(addr as *const u32).read_volatile()`). -/
def read_word (mem : Nat → Nat) (addr : Nat) : Nat :=
  readByte mem addr + 256 * readByte mem (addr + 1) +
    65536 * readByte mem (addr + 2) + 16777216 * readByte mem (addr + 3)

/-- `flash_program` / `flash_range_program`: overwrite `data.length` bytes at
absolute address `start` (the bank was erased beforehand, so plain overwrite
models NOR programming). -/
def programBytes (mem : Nat → Nat) (start : Nat) (data : List Nat) : Nat → Nat :=
  fun a => if start ≤ a ∧ a < start + data.length then data.getD (a - start) 0xFF else mem a

/-! ## CRC-32 -/

/-- One polynomial round: `if crc & 1 != 0 { (crc >> 1) ^ 0xEDB88320 } else { crc >> 1 }`. -/
def crc32_round (c : Nat) : Nat :=
  if c % 2 = 1 then Nat.xor (c / 2) 0xEDB88320 else c / 2

def crc32_rounds : Nat → Nat → Nat
  | 0, c => c
  | k + 1, c => crc32_rounds k (crc32_round c)

/-- Per-byte step of the reference CRC: `crc ^= byte` then 8 rounds. -/
def crc32_step (crc byte : Nat) : Nat :=
  crc32_rounds 8 (Nat.xor crc byte)

/-- Modelled from the spec: the `crc` crate's `CRC_32_ISO_HDLC` digest (a
third-party dependency, not in this repository).  Per the spec: ISO-HDLC
polynomial `0xEDB88320` reflected, initial value `0xFFFFFFFF`, final XOR
`0xFFFFFFFF`; `Digest::update` consumes a byte slice into the running state. -/
def crc32_update (state : Nat) (bytes : List Nat) : Nat :=
  List.foldl crc32_step state bytes

namespace Common

/-- `compute_crc32` from crispy-common/src/flash.rs: the one-pass bitwise
reference (`crc = 0xFFFFFFFF`; per byte xor + 8 rounds; final `!crc`).  Since
the state stays below `2^32`, `!crc` on `u32` is `xor 0xFFFFFFFF`. -/
def compute_crc32 (mem : Nat → Nat) (addr size : Nat) : Nat :=
  Nat.xor (List.foldl crc32_step 0xFFFFFFFF (readRangeM mem addr size)) 0xFFFFFFFF

end Common

namespace Bootloader

/-- The chunk loop of `compute_crc32` in crispy-bootloader/src/flash.rs:
`while remaining > 0 { n = min(remaining, 256); read chunk; digest.update; }`.
The extra `fuel` argument makes the recursion structural; every iteration
consumes at least one byte, so `fuel = remaining` never runs out (proved by
`compute_crc32_equiv` below, which identifies the loop with a single pass). -/
def crc32_go (mem : Nat → Nat) : Nat → Nat → Nat → Nat → Nat
  | 0, _, _, state => state
  | fuel + 1, addr, remaining, state =>
    if remaining = 0 then state
    else
      let n := min remaining 256
      crc32_go mem fuel (addr + n) (remaining - n)
        (crc32_update state (readRangeM mem addr n))

/-- `compute_crc32` from crispy-bootloader/src/flash.rs: stream the range
through the `CRC_32_ISO_HDLC` digest in 256-byte chunks, then finalize. -/
def compute_crc32 (mem : Nat → Nat) (addr size : Nat) : Nat :=
  Nat.xor (crc32_go mem size addr size 0xFFFFFFFF) 0xFFFFFFFF

end Bootloader

/-! ## Boot path (crispy-bootloader/src/boot.rs) -/

/-- Only the two fields of `MemoryLayout` that bank selection reads. -/
structure MemoryLayout where
  fw_a : Nat
  fw_b : Nat

def is_in_ram (env : FlashEnv) (addr : Nat) : Bool :=
  decide (env.ram_start ≤ addr) && decide (addr ≤ env.ram_end)

/-- `VectorTable::read_from` + `is_valid_for_ram_execution`: both the initial
SP (word 0) and the reset vector (word 1) must lie in the RAM region. -/
def vt_valid (env : FlashEnv) (addr : Nat) : Bool :=
  is_in_ram env (read_word env.mem addr) && is_in_ram env (read_word env.mem (addr + 4))

/-- `validate_bank_with_crc`: size nonzero, plausible vector table, CRC match. -/
def validate_bank_with_crc (env : FlashEnv) (addr crc size : Nat) : Bool :=
  if size = 0 then false
  else if !vt_valid env addr then false
  else if Bootloader.compute_crc32 env.mem addr size ≠ crc then false
  else true

/-- `validate_bank`: vector-table-only check, returning `(initial_sp, reset_vector)`. -/
def validate_bank (env : FlashEnv) (flash_addr : Nat) : Option (Nat × Nat) :=
  if vt_valid env flash_addr then
    some (read_word env.mem flash_addr, read_word env.mem (flash_addr + 4))
  else none

/-- `check_update_trigger`: read the RAM sentinel word, always clear it to 0,
then report GP2-low OR sentinel-magic.  Returns (trigger, new sentinel value). -/
def check_update_trigger (gp2_is_low : Bool) (ram_flag : Nat) : Bool × Nat :=
  let flag := ram_flag
  let cleared := 0
  (gp2_is_low || decide (flag = RAM_UPDATE_MAGIC), cleared)

/-- `select_boot_bank`: rollback pre-step (toggle + reset), then primary-CRC,
fallback-CRC, primary-basic, fallback-basic, default-primary, returning the
chosen flash address and the updated BootData.  `u8` increments are `% 256`. -/
def select_boot_bank (env : FlashEnv) (bd0 : BootData) (layout : MemoryLayout) :
    Nat × BootData :=
  let bd :=
    if MAX_BOOT_ATTEMPTS ≤ bd0.boot_attempts ∧ bd0.confirmed = 0 then
      { bd0 with active_bank := toggle_bank bd0.active_bank, boot_attempts := 0,
                 confirmed := 0 }
    else bd0
  let primary_addr := if bd.active_bank = 0 then layout.fw_a else layout.fw_b
  let fallback_addr := if bd.active_bank = 0 then layout.fw_b else layout.fw_a
  let pm := bank_metadata bd bd.active_bank
  let fm := bank_metadata bd (toggle_bank bd.active_bank)
  if validate_bank_with_crc env primary_addr pm.1 pm.2 then
    (primary_addr, { bd with boot_attempts := (bd.boot_attempts + 1) % 256 })
  else if validate_bank_with_crc env fallback_addr fm.1 fm.2 then
    (fallback_addr, { bd with active_bank := toggle_bank bd.active_bank,
                              boot_attempts := 1, confirmed := 0 })
  else if (validate_bank env primary_addr).isSome then
    (primary_addr, { bd with boot_attempts := (bd.boot_attempts + 1) % 256 })
  else if (validate_bank env fallback_addr).isSome then
    (fallback_addr, { bd with active_bank := toggle_bank bd.active_bank,
                              boot_attempts := 1 })
  else
    (primary_addr, { bd with boot_attempts := (bd.boot_attempts + 1) % 256 })

/-! ## Update-mode engine (crispy-bootloader/src/update.rs) -/

inductive UpdateState where
  | Idle
  | Receiving (bank bank_addr expected_size expected_crc version bytes_received : Nat)
deriving DecidableEq

/-- `addr_to_offset` (crispy-bootloader/src/flash.rs). -/
def addr_to_offset (abs_addr : Nat) : Nat :=
  abs_addr - FLASH_BASE

/-- `read_boot_data` (crispy-bootloader/src/flash.rs): default record when the
magic is invalid. -/
def read_boot_data (env : FlashEnv) : BootData :=
  if env.boot.magic = BOOT_DATA_MAGIC then env.boot else BootData.default_new

/-- `write_boot_data` (crispy-bootloader/src/flash.rs): persist the record. -/
def write_boot_data (env : FlashEnv) (bd : BootData) : FlashEnv :=
  { env with boot := bd }

/-- `handle_get_status`. -/
def handle_get_status (env : FlashEnv) (state : UpdateState) :
    UpdateState × FlashEnv × Response :=
  let bd := read_boot_data env
  let boot_state :=
    match state with
    | UpdateState.Idle => BootState.UpdateMode
    | UpdateState.Receiving _ _ _ _ _ _ => BootState.Receiving
  (state, env, Response.Status bd.active_bank bd.version_a bd.version_b boot_state)

/-- `handle_data_block`: sequential-offset and size checks, pad to a 256-byte
page multiple with `0xFF`, program at `bank_offset + bytes_received`, advance. -/
def handle_data_block (env : FlashEnv) (state : UpdateState) (offset : Nat)
    (data : List Nat) : UpdateState × FlashEnv × Response :=
  match state with
  | UpdateState.Idle => (state, env, Response.Ack AckStatus.BadState)
  | UpdateState.Receiving bank bank_addr expected_size expected_crc version
      bytes_received =>
    if offset ≠ bytes_received then (state, env, Response.Ack AckStatus.BadCommand)
    else if expected_size < bytes_received + data.length then
      (state, env, Response.Ack AckStatus.BadCommand)
    else
      let padded_len :=
        (data.length + (FLASH_PAGE_SIZE - 1)) / FLASH_PAGE_SIZE * FLASH_PAGE_SIZE
      let page_buf := data ++ List.replicate (padded_len - data.length) 0xFF
      let flash_offset := addr_to_offset bank_addr + bytes_received
      let env2 := { env with mem := programBytes env.mem (FLASH_BASE + flash_offset) page_buf }
      (UpdateState.Receiving bank bank_addr expected_size expected_crc version
         (bytes_received + data.length),
       env2, Response.Ack AckStatus.Ok)

/-- `handle_finish_update`: size check, CRC check, commit BootData. -/
def handle_finish_update (env : FlashEnv) (state : UpdateState) :
    UpdateState × FlashEnv × Response :=
  match state with
  | UpdateState.Idle => (state, env, Response.Ack AckStatus.BadState)
  | UpdateState.Receiving bank bank_addr expected_size expected_crc version
      bytes_received =>
    if bytes_received ≠ expected_size then
      (UpdateState.Receiving bank bank_addr expected_size expected_crc version
         bytes_received,
       env, Response.Ack AckStatus.BadCommand)
    else
      let actual_crc := Bootloader.compute_crc32 env.mem bank_addr expected_size
      if actual_crc ≠ expected_crc then
        (UpdateState.Idle, env, Response.Ack AckStatus.CrcError)
      else
        let bd0 := read_boot_data env
        let bd1 := { bd0 with active_bank := bank, confirmed := 0, boot_attempts := 0 }
        let bd2 :=
          if bank = 0 then
            { bd1 with version_a := version, crc_a := expected_crc, size_a := expected_size }
          else
            { bd1 with version_b := version, crc_b := expected_crc, size_b := expected_size }
        (UpdateState.Idle, write_boot_data env bd2, Response.Ack AckStatus.Ok)

/-- `handle_set_active_bank`: Idle-only, bank range, non-empty target, CRC
re-verification, then commit. -/
def handle_set_active_bank (env : FlashEnv) (state : UpdateState) (bank : Nat) :
    UpdateState × FlashEnv × Response :=
  match state with
  | UpdateState.Receiving _ _ _ _ _ _ => (state, env, Response.Ack AckStatus.BadState)
  | UpdateState.Idle =>
    if 1 < bank then (state, env, Response.Ack AckStatus.BankInvalid)
    else
      let bd := read_boot_data env
      let size := if bank = 0 then bd.size_a else bd.size_b
      let crc := if bank = 0 then bd.crc_a else bd.crc_b
      if size = 0 then (state, env, Response.Ack AckStatus.BankInvalid)
      else
        let bank_addr := if bank = 0 then FW_A_ADDR else FW_B_ADDR
        if Bootloader.compute_crc32 env.mem bank_addr size ≠ crc then
          (state, env, Response.Ack AckStatus.CrcError)
        else
          (state,
           write_boot_data env
             { bd with active_bank := bank, confirmed := 0, boot_attempts := 0 },
           Response.Ack AckStatus.Ok)

/-! ## COBS (crispy-common/src/cobs.rs)

The imperative encoder state: the output so far, the index of the current
group's (placeholder) code byte, and the running code value.  `List.set` out
of range is a no-op, which coincides with the guarded `output[code_idx] = code`
of the heapless variant and is unreachable for the std variant. -/

structure EncState where
  out : List Nat
  code_idx : Nat
  code : Nat
deriving DecidableEq

/-- One loop iteration of `encode` (std): `code` is a `u8` that is reset before
it can exceed 255, so plain `+ 1` is exact. -/
def encStep (s : EncState) (byte : Nat) : EncState :=
  if byte = 0 then
    let out := s.out.set s.code_idx s.code
    { out := out ++ [0], code_idx := out.length, code := 1 }
  else
    let out := s.out ++ [byte]
    let code := s.code + 1
    if code = 255 then
      let out2 := out.set s.code_idx code
      { out := out2 ++ [0], code_idx := out2.length, code := 1 }
    else
      { out := out, code_idx := s.code_idx, code := code }

/-- `encode` (std): placeholder first code byte, loop, patch, delimiter. -/
def encode (data : List Nat) : List Nat :=
  let s := data.foldl encStep { out := [0], code_idx := 0, code := 1 }
  s.out.set s.code_idx s.code ++ [0]

/-- `HeaplessVec::push` with capacity `N`; a failed push is dropped
(`let _ = output.push(..)`). -/
def pushH (N : Nat) (v : List Nat) (b : Nat) : List Nat :=
  if v.length < N then v ++ [b] else v

/-- One loop iteration of `encode_heapless`. -/
def encStepH (N : Nat) (s : EncState) (byte : Nat) : EncState :=
  if byte = 0 then
    let out := s.out.set s.code_idx s.code
    { out := pushH N out 0, code_idx := out.length, code := 1 }
  else
    let out := pushH N s.out byte
    let code := s.code + 1
    if code = 255 then
      let out2 := out.set s.code_idx code
      { out := pushH N out2 0, code_idx := out2.length, code := 1 }
    else
      { out := out, code_idx := s.code_idx, code := code }

/-- `encode_heapless` into a buffer of capacity `N`. -/
def encode_heapless (N : Nat) (data : List Nat) : List Nat :=
  let s := data.foldl (encStepH N) { out := pushH N [] 0, code_idx := 0, code := 1 }
  pushH N (s.out.set s.code_idx s.code) 0

/-- The decode loop of `decode` (std).  `fuel` makes the recursion structural:
every iteration consumes the code byte, so `fuel = data.length` suffices. -/
def decodeGo : Nat → List Nat → List Nat → Option (List Nat)
  | _, [], acc => some acc
  | 0, _ :: _, _ => none
  | fuel + 1, c :: rest, acc =>
    if c = 0 then some acc
    else if rest.length < c - 1 then none
    else
      let acc2 := acc ++ rest.take (c - 1)
      match rest.drop (c - 1) with
      | [] => some acc2
      | d :: rest2 =>
        if c < 255 ∧ d ≠ 0 then decodeGo fuel (d :: rest2) (acc2 ++ [0])
        else decodeGo fuel (d :: rest2) acc2

/-- `decode` (std). -/
def decode (data : List Nat) : Option (List Nat) :=
  if data.isEmpty then none else decodeGo data.length data []

/-- The decode loop of `decode_heapless` with output capacity `M`: a failed
push (running out of data, or exceeding `M`) returns `None`. -/
def decodeGoH (M : Nat) : Nat → List Nat → List Nat → Option (List Nat)
  | _, [], acc => some acc
  | 0, _ :: _, _ => none
  | fuel + 1, c :: rest, acc =>
    if c = 0 then some acc
    else if rest.length < c - 1 then none
    else if M < acc.length + (c - 1) then none
    else
      let acc2 := acc ++ rest.take (c - 1)
      match rest.drop (c - 1) with
      | [] => some acc2
      | d :: rest2 =>
        if c < 255 ∧ d ≠ 0 then
          if M < acc2.length + 1 then none
          else decodeGoH M fuel (d :: rest2) (acc2 ++ [0])
        else decodeGoH M fuel (d :: rest2) acc2

/-- `decode_heapless` with output capacity `M`. -/
def decode_heapless (M : Nat) (data : List Nat) : Option (List Nat) :=
  if data.isEmpty then none else decodeGoH M data.length data []

/-! ## Proof infrastructure for the COBS development

`encodeFrom pending data` is a functional restatement of the encoder loop:
the current (open) group already holds the bytes `pending`.  It is related to
the imperative `encode` by `encodeAux_spec` below; all properties of `encode`
are proved through it. -/

def encodeAux (s : EncState) (data : List Nat) : List Nat :=
  let s2 := data.foldl encStep s
  s2.out.set s2.code_idx s2.code ++ [0]

def encodeAuxH (N : Nat) (s : EncState) (data : List Nat) : List Nat :=
  let s2 := data.foldl (encStepH N) s
  pushH N (s2.out.set s2.code_idx s2.code) 0

def encodeFrom : List Nat → List Nat → List Nat
  | pending, [] => (pending.length + 1) :: (pending ++ [0])
  | pending, b :: rest =>
    if b = 0 then (pending.length + 1) :: (pending ++ encodeFrom [] rest)
    else if pending.length + 2 = 255 then
      255 :: ((pending ++ [b]) ++ encodeFrom [] rest)
    else encodeFrom (pending ++ [b]) rest

/-! ## COBS lemmas -/

lemma set_len_append (p t : List Nat) (a b : Nat) :
    (p ++ a :: t).set p.length b = p ++ b :: t := by
  induction p with
  | nil => rfl
  | cons x xs ih => simp [List.set, ih]

lemma encodeAux_cons (s : EncState) (b : Nat) (rest : List Nat) :
    encodeAux s (b :: rest) = encodeAux (encStep s b) rest := rfl

lemma encodeAux_spec : ∀ (data p pending : List Nat), pending.length ≤ 253 →
    encodeAux ⟨p ++ 0 :: pending, p.length, pending.length + 1⟩ data
      = p ++ encodeFrom pending data := by
  intro data
  induction data with
  | nil =>
    intro p pending _
    simp [encodeAux, encodeFrom, set_len_append]
  | cons b rest ih =>
    intro p pending h
    rw [encodeAux_cons]
    by_cases hb : b = 0
    · subst hb
      have hstep : encStep ⟨p ++ 0 :: pending, p.length, pending.length + 1⟩ 0
          = ⟨(p ++ (pending.length + 1) :: pending) ++ 0 :: ([] : List Nat),
             (p ++ (pending.length + 1) :: pending).length,
             ([] : List Nat).length + 1⟩ := by
        simp [encStep, set_len_append]
      rw [hstep, ih (p ++ (pending.length + 1) :: pending) [] (by simp)]
      simp [encodeFrom]
    · by_cases h255 : pending.length + 2 = 255
      · have h255a : pending.length + 1 + 1 = 255 := by omega
        have hstep : encStep ⟨p ++ 0 :: pending, p.length, pending.length + 1⟩ b
            = ⟨(p ++ 255 :: (pending ++ [b])) ++ 0 :: ([] : List Nat),
               (p ++ 255 :: (pending ++ [b])).length,
               ([] : List Nat).length + 1⟩ := by
          simp only [encStep, if_neg hb, if_pos h255a]
          rw [show (p ++ 0 :: pending) ++ [b] = p ++ 0 :: (pending ++ [b]) by simp]
          rw [h255a, set_len_append]
          simp
        rw [hstep, ih (p ++ 255 :: (pending ++ [b])) [] (by simp)]
        simp [encodeFrom, hb, h255]
      · have h255a : ¬ pending.length + 1 + 1 = 255 := by omega
        have hstep : encStep ⟨p ++ 0 :: pending, p.length, pending.length + 1⟩ b
            = ⟨p ++ 0 :: (pending ++ [b]), p.length, (pending ++ [b]).length + 1⟩ := by
          simp [encStep, hb, h255a]
        rw [hstep, ih p (pending ++ [b]) (by simp; omega)]
        simp [encodeFrom, hb, h255]

lemma encode_eq_encodeFrom (data : List Nat) : encode data = encodeFrom [] data := by
  have h := encodeAux_spec data [] [] (by simp)
  simpa [encodeAux, encode] using h

lemma encodeFrom_ne_nil_head :
    ∀ (data pending : List Nat), ∃ h t, encodeFrom pending data = h :: t ∧ h ≠ 0 := by
  intro data
  induction data with
  | nil =>
    intro pending
    exact ⟨pending.length + 1, pending ++ [0], rfl, by omega⟩
  | cons b rest ih =>
    intro pending
    by_cases hb : b = 0
    · subst hb
      refine ⟨pending.length + 1, pending ++ encodeFrom [] rest, ?_, by omega⟩
      simp [encodeFrom]
    · by_cases h255 : pending.length + 2 = 255
      · refine ⟨255, (pending ++ [b]) ++ encodeFrom [] rest, ?_, by omega⟩
        simp [encodeFrom, hb, h255]
      · obtain ⟨h, t, hht, hh⟩ := ih (pending ++ [b])
        refine ⟨h, t, ?_, hh⟩
        rw [encodeFrom, if_neg hb, if_neg h255, hht]

lemma encodeFrom_no_zero :
    ∀ (data pending : List Nat), 0 ∉ pending →
      ∃ body, encodeFrom pending data = body ++ [0] ∧ 0 ∉ body := by
  intro data
  induction data with
  | nil =>
    intro pending hp
    refine ⟨(pending.length + 1) :: pending, by simp [encodeFrom], ?_⟩
    intro hmem
    rcases List.mem_cons.mp hmem with h | h
    · omega
    · exact hp h
  | cons b rest ih =>
    intro pending hp
    by_cases hb : b = 0
    · subst hb
      obtain ⟨body, hbody, hnz⟩ := ih [] (by simp)
      refine ⟨(pending.length + 1) :: (pending ++ body), ?_, ?_⟩
      · simp [encodeFrom, hbody]
      · intro hmem
        rcases List.mem_cons.mp hmem with h | h
        · omega
        · rcases List.mem_append.mp h with h | h
          · exact hp h
          · exact hnz h
    · by_cases h255 : pending.length + 2 = 255
      · obtain ⟨body, hbody, hnz⟩ := ih [] (by simp)
        refine ⟨255 :: ((pending ++ [b]) ++ body), ?_, ?_⟩
        · simp [encodeFrom, hb, h255, hbody]
        · intro hmem
          rcases List.mem_cons.mp hmem with h | h
          · omega
          · rcases List.mem_append.mp h with h | h
            · rcases List.mem_append.mp h with h | h
              · exact hp h
              · simp at h
                exact hb h.symm
            · exact hnz h
      · obtain ⟨body, hbody, hnz⟩ := ih (pending ++ [b]) (by
          intro hmem
          rcases List.mem_append.mp hmem with h | h
          · exact hp h
          · simp at h
            exact hb h.symm)
        refine ⟨body, ?_, hnz⟩
        rw [encodeFrom, if_neg hb, if_neg h255, hbody]

lemma decodeGo_encodeFrom :
    ∀ (data : List Nat) (fuel : Nat) (pending acc : List Nat),
      pending.length ≤ 253 → (encodeFrom pending data).length ≤ fuel →
      decodeGo fuel (encodeFrom pending data) acc = some ((acc ++ pending) ++ data) := by
  intro data
  induction data with
  | nil =>
    intro fuel pending acc hp hf
    have hlen : (encodeFrom pending ([] : List Nat)).length = pending.length + 2 := by
      simp [encodeFrom]
    obtain ⟨g, rfl⟩ : ∃ g, fuel = g + 1 + 1 := ⟨fuel - 2, by omega⟩
    show decodeGo (g + 1 + 1) ((pending.length + 1) :: (pending ++ [0])) acc = _
    rw [decodeGo]
    have h1 : ¬ pending.length + 1 = 0 := by omega
    have h2 : ¬ (pending ++ [0]).length < pending.length + 1 - 1 := by
      simp
    have htake : (pending ++ [0]).take (pending.length + 1 - 1) = pending := by
      simp [List.take_left]
    have hdrop : (pending ++ [0]).drop (pending.length + 1 - 1) = [0] := by
      simp [List.drop_left]
    rw [if_neg h1, if_neg h2]
    simp only [htake, hdrop]
    have h3 : ¬ (pending.length + 1 < 255 ∧ (0 : Nat) ≠ 0) := by simp
    rw [if_neg h3, decodeGo]
    simp
  | cons b rest ih =>
    intro fuel pending acc hp hf
    by_cases hb : b = 0
    · subst hb
      obtain ⟨h0, t0, henc, hh0⟩ := encodeFrom_ne_nil_head rest []
      have hlen : (encodeFrom pending ((0 : Nat) :: rest)).length
          = pending.length + 1 + (encodeFrom [] rest).length := by
        simp [encodeFrom]
        omega
      have hfgt : 1 ≤ fuel := by
        rw [hlen] at hf
        omega
      obtain ⟨f, rfl⟩ : ∃ f, fuel = f + 1 := ⟨fuel - 1, by omega⟩
      have hstep : encodeFrom pending ((0 : Nat) :: rest)
          = (pending.length + 1) :: (pending ++ encodeFrom [] rest) := by
        simp [encodeFrom]
      rw [hstep, decodeGo]
      have h1 : ¬ pending.length + 1 = 0 := by omega
      have h2 : ¬ (pending ++ encodeFrom [] rest).length < pending.length + 1 - 1 := by
        simp
      have htake : (pending ++ encodeFrom [] rest).take (pending.length + 1 - 1)
          = pending := by
        simp [List.take_left]
      have hdrop : (pending ++ encodeFrom [] rest).drop (pending.length + 1 - 1)
          = h0 :: t0 := by
        simp [List.drop_left, henc]
      rw [if_neg h1, if_neg h2]
      simp only [htake, hdrop]
      have h3 : pending.length + 1 < 255 ∧ h0 ≠ 0 := ⟨by omega, hh0⟩
      rw [if_pos h3, ← henc,
          ih f [] ((acc ++ pending) ++ [0]) (by simp) (by
            rw [hstep] at hf
            simp only [List.length_cons, List.length_append] at hf
            omega)]
      simp
    · by_cases h255 : pending.length + 2 = 255
      · obtain ⟨h0, t0, henc, hh0⟩ := encodeFrom_ne_nil_head rest []
        have hstep : encodeFrom pending (b :: rest)
            = 255 :: ((pending ++ [b]) ++ encodeFrom [] rest) := by
          simp [encodeFrom, hb, h255]
        have hfgt : 1 ≤ fuel := by
          rw [hstep] at hf
          simp at hf
          omega
        obtain ⟨f, rfl⟩ : ∃ f, fuel = f + 1 := ⟨fuel - 1, by omega⟩
        rw [hstep, decodeGo]
        have hplen : (pending ++ [b]).length = 254 := by
          simp
          omega
        have h1 : ¬ (255 : Nat) = 0 := by omega
        have h2 : ¬ ((pending ++ [b]) ++ encodeFrom [] rest).length < 255 - 1 := by
          simp
          omega
        have htake : ((pending ++ [b]) ++ encodeFrom [] rest).take (255 - 1)
            = pending ++ [b] := by
          rw [show (255 : Nat) - 1 = (pending ++ [b]).length by omega]
          exact List.take_left _ _
        have hdrop : ((pending ++ [b]) ++ encodeFrom [] rest).drop (255 - 1)
            = h0 :: t0 := by
          rw [show (255 : Nat) - 1 = (pending ++ [b]).length by omega,
              List.drop_left, henc]
        rw [if_neg h1, if_neg h2]
        simp only [htake, hdrop]
        have h3 : ¬ ((255 : Nat) < 255 ∧ h0 ≠ 0) := by simp
        rw [if_neg h3, ← henc,
            ih f [] (acc ++ (pending ++ [b])) (by simp) (by
              rw [hstep] at hf
              simp only [List.length_cons, List.length_append] at hf
              omega)]
        simp
      · have hstep : encodeFrom pending (b :: rest)
            = encodeFrom (pending ++ [b]) rest := by
          rw [encodeFrom, if_neg hb, if_neg h255]
        rw [hstep]
        rw [ih fuel (pending ++ [b]) acc (by simp; omega) (by rw [← hstep]; exact hf)]
        simp

lemma encStep_out_length (s : EncState) (b : Nat) :
    (encStep s b).out.length = s.out.length + 1 ∨
    (encStep s b).out.length = s.out.length + 2 := by
  by_cases hb : b = 0
  · left
    simp [encStep, hb]
  · by_cases hc : s.code + 1 = 255
    · right
      simp [encStep, hb, hc]
    · left
      simp [encStep, hb, hc]

lemma foldl_encStep_length : ∀ (data : List Nat) (s : EncState),
    s.out.length ≤ (data.foldl encStep s).out.length := by
  intro data
  induction data with
  | nil => intro s; simp
  | cons b rest ih =>
    intro s
    have h := encStep_out_length s b
    have h2 := ih (encStep s b)
    simp only [List.foldl_cons]
    omega

lemma encodeAux_length (s : EncState) (data : List Nat) :
    (encodeAux s data).length = (data.foldl encStep s).out.length + 1 := by
  simp [encodeAux]

lemma encStepH_eq_encStep (N : Nat) (s : EncState) (b : Nat)
    (h : (encStep s b).out.length ≤ N) :
    encStepH N s b = encStep s b := by
  by_cases hb : b = 0
  · have hlen : (encStep s b).out.length = s.out.length + 1 := by simp [encStep, hb]
    have hpush : s.out.length < N := by omega
    simp [encStep, encStepH, hb, pushH, List.length_set, hpush]
  · by_cases hc : s.code + 1 = 255
    · have hlen : (encStep s b).out.length = s.out.length + 2 := by simp [encStep, hb, hc]
      have h1 : s.out.length < N := by omega
      have h2 : s.out.length + 1 < N := by omega
      simp [encStep, encStepH, hb, hc, pushH, List.length_set, List.length_append, h1, h2]
    · have hlen : (encStep s b).out.length = s.out.length + 1 := by simp [encStep, hb, hc]
      have h1 : s.out.length < N := by omega
      simp [encStep, encStepH, hb, hc, pushH, h1]

lemma encodeAuxH_eq : ∀ (data : List Nat) (s : EncState) (N : Nat),
    (encodeAux s data).length ≤ N → encodeAuxH N s data = encodeAux s data := by
  intro data
  induction data with
  | nil =>
    intro s N h
    have hlen := encodeAux_length s []
    simp only [List.foldl_nil] at hlen
    have hpush : s.out.length < N := by omega
    simp [encodeAuxH, encodeAux, pushH, List.length_set, hpush]
  | cons b rest ih =>
    intro s N h
    have heq : encodeAux (encStep s b) rest = encodeAux s (b :: rest) := rfl
    have hlen : (encStep s b).out.length ≤ N := by
      have h1 := foldl_encStep_length rest (encStep s b)
      have h2 := encodeAux_length s (b :: rest)
      simp only [List.foldl_cons] at h2
      omega
    have hstep : encodeAuxH N s (b :: rest) = encodeAuxH N (encStepH N s b) rest := rfl
    rw [hstep, encStepH_eq_encStep N s b hlen, ih (encStep s b) N (by rw [heq]; exact h),
        heq]

lemma encode_heapless_eq (N : Nat) (data : List Nat)
    (h : (encode data).length ≤ N) :
    encode_heapless N data = encode data := by
  have h1 : 1 ≤ (encode data).length := by
    simp [encode]
  have hinit : pushH N ([] : List Nat) 0 = [0] := by
    unfold pushH
    rw [if_pos (by simp; omega)]
    rfl
  have h2 : encode_heapless N data = encodeAuxH N ⟨[0], 0, 1⟩ data := by
    simp only [encode_heapless, encodeAuxH, hinit]
  rw [h2, encodeAuxH_eq data ⟨[0], 0, 1⟩ N h]
  rfl

lemma decodeGo_prefix : ∀ (fuel : Nat) (data acc out : List Nat),
    decodeGo fuel data acc = some out → ∃ t, out = acc ++ t := by
  intro fuel
  induction fuel with
  | zero =>
    intro data acc out h
    cases data with
    | nil =>
      simp [decodeGo] at h
      exact ⟨[], by simp [← h]⟩
    | cons c rest => simp [decodeGo] at h
  | succ f ih =>
    intro data acc out h
    cases data with
    | nil =>
      simp [decodeGo] at h
      exact ⟨[], by simp [← h]⟩
    | cons c rest =>
      by_cases hc : c = 0
      · simp [decodeGo, hc] at h
        exact ⟨[], by simp [← h]⟩
      · by_cases hlen : rest.length < c - 1
        · simp [decodeGo, hc, hlen] at h
        · cases hdrop : rest.drop (c - 1) with
          | nil =>
            simp [decodeGo, hc, hlen, hdrop] at h
            exact ⟨rest.take (c - 1), by simp [← h]⟩
          | cons d rest2 =>
            by_cases hz : c < 255 ∧ d ≠ 0
            · simp only [decodeGo, if_neg hc, if_neg hlen, hdrop, if_pos hz] at h
              obtain ⟨t, ht⟩ := ih _ _ _ h
              exact ⟨rest.take (c - 1) ++ [0] ++ t, by simp [ht]⟩
            · simp only [decodeGo, if_neg hc, if_neg hlen, hdrop, if_neg hz] at h
              obtain ⟨t, ht⟩ := ih _ _ _ h
              exact ⟨rest.take (c - 1) ++ t, by simp [ht]⟩

lemma decodeGoH_eq : ∀ (fuel : Nat) (data acc out : List Nat) (M : Nat),
    decodeGo fuel data acc = some out → out.length ≤ M →
    decodeGoH M fuel data acc = some out := by
  intro fuel
  induction fuel with
  | zero =>
    intro data acc out M h hM
    cases data with
    | nil => simpa [decodeGo, decodeGoH] using h
    | cons c rest => simp [decodeGo] at h
  | succ f ih =>
    intro data acc out M h hM
    cases data with
    | nil => simpa [decodeGo, decodeGoH] using h
    | cons c rest =>
      by_cases hc : c = 0
      · simp [decodeGo, hc] at h
        simp [decodeGoH, hc, h]
      · by_cases hlen : rest.length < c - 1
        · simp [decodeGo, hc, hlen] at h
        · have htake : (rest.take (c - 1)).length = c - 1 := by
            simp [List.length_take]
            omega
          cases hdrop : rest.drop (c - 1) with
          | nil =>
            simp only [decodeGo, if_neg hc, if_neg hlen, hdrop] at h
            have hout : out.length = acc.length + (c - 1) := by
              have := congrArg (fun o => Option.map List.length o) h
              simp [htake] at this
              omega
            have hcap : ¬ M < acc.length + (c - 1) := by omega
            simp only [decodeGoH, if_neg hc, if_neg hlen, if_neg hcap, hdrop]
            exact h
          | cons d rest2 =>
            by_cases hz : c < 255 ∧ d ≠ 0
            · simp only [decodeGo, if_neg hc, if_neg hlen, hdrop, if_pos hz] at h
              obtain ⟨t, ht⟩ := decodeGo_prefix f _ _ _ h
              have hout : acc.length + (c - 1) + 1 + t.length = out.length := by
                rw [ht]
                simp [htake]
                omega
              have hcap1 : ¬ M < acc.length + (c - 1) := by omega
              have hcap2 : ¬ M < (acc ++ rest.take (c - 1)).length + 1 := by
                simp [htake]
                omega
              simp only [decodeGoH, if_neg hc, if_neg hlen, if_neg hcap1, hdrop,
                         if_pos hz, if_neg hcap2]
              exact ih _ _ _ M h hM
            · simp only [decodeGo, if_neg hc, if_neg hlen, hdrop, if_neg hz] at h
              obtain ⟨t, ht⟩ := decodeGo_prefix f _ _ _ h
              have hout : acc.length + (c - 1) + t.length = out.length := by
                rw [ht]
                simp [htake]
                omega
              have hcap1 : ¬ M < acc.length + (c - 1) := by omega
              simp only [decodeGoH, if_neg hc, if_neg hlen, if_neg hcap1, hdrop,
                         if_neg hz]
              exact ih _ _ _ M h hM

/-! ## Basic lemmas -/

lemma read_boot_data_write (env : FlashEnv) (bd : BootData)
    (h : bd.magic = BOOT_DATA_MAGIC) :
    read_boot_data (write_boot_data env bd) = bd := by
  simp [read_boot_data, write_boot_data, h]

lemma readRangeM_add (mem : Nat → Nat) (addr a b : Nat) :
    readRangeM mem addr (a + b) = readRangeM mem addr a ++ readRangeM mem (addr + a) b := by
  simp only [readRangeM, List.range_add, List.map_append, List.map_map]
  congr 1
  apply List.map_congr_left
  intro i _
  simp [Function.comp, Nat.add_assoc]

lemma readRangeM_succ (mem : Nat → Nat) (addr n : Nat) :
    readRangeM mem addr (n + 1) = readByte mem addr :: readRangeM mem (addr + 1) n := by
  simp only [readRangeM, List.range_succ_eq_map, List.map_cons, List.map_map]
  have htail : List.map ((fun i => readByte mem (addr + i)) ∘ Nat.succ) (List.range n)
      = List.map (fun i => readByte mem (addr + 1 + i)) (List.range n) := by
    apply List.map_congr_left
    intro i _
    simp only [Function.comp_apply]
    congr 1
    omega
  rw [htail]
  simp

lemma readRangeM_congr (f g : Nat → Nat) (s n : Nat)
    (h : ∀ i, i < n → f (s + i) = g (s + i)) :
    readRangeM f s n = readRangeM g s n := by
  unfold readRangeM readByte
  apply List.map_congr_left
  intro i hi
  rw [h i (List.mem_range.mp hi)]

lemma readRangeM_programBytes : ∀ (l : List Nat) (mem : Nat → Nat) (start : Nat),
    (∀ x ∈ l, x < 256) →
    readRangeM (programBytes mem start l) start l.length = l := by
  intro l
  induction l with
  | nil => intro mem start _; simp [readRangeM]
  | cons x xs ih =>
    intro mem start h
    have hx : x < 256 := h x (by simp)
    have hlen : (x :: xs).length = xs.length + 1 := rfl
    rw [hlen, readRangeM_succ]
    congr 1
    · have : programBytes mem start (x :: xs) start = x := by
        simp [programBytes]
      simp [readByte, this, Nat.mod_eq_of_lt hx]
    · rw [readRangeM_congr (programBytes mem start (x :: xs))
            (programBytes mem (start + 1) xs) (start + 1) xs.length ?_]
      · exact ih mem (start + 1) fun y hy => h y (by simp [hy])
      · intro i hi
        simp only [programBytes, List.length_cons]
        have h1 : start ≤ start + 1 + i := by omega
        have h2 : start + 1 + i < start + (xs.length + 1) := by omega
        have h3 : start + 1 ≤ start + 1 + i := by omega
        have h4 : start + 1 + i < start + 1 + xs.length := by omega
        rw [if_pos ⟨h1, h2⟩, if_pos ⟨h3, h4⟩]
        have h5 : start + 1 + i - start = i + 1 := by omega
        have h6 : start + 1 + i - (start + 1) = i := by omega
        rw [h5, h6, List.getD_cons_succ]

lemma crc32_go_eq (mem : Nat → Nat) :
    ∀ (fuel addr remaining state : Nat), remaining ≤ fuel →
      Bootloader.crc32_go mem fuel addr remaining state
        = crc32_update state (readRangeM mem addr remaining) := by
  intro fuel
  induction fuel with
  | zero =>
    intro addr remaining state h
    have : remaining = 0 := by omega
    subst this
    simp [Bootloader.crc32_go, crc32_update, readRangeM]
  | succ f ih =>
    intro addr remaining state h
    by_cases h0 : remaining = 0
    · subst h0
      simp [Bootloader.crc32_go, crc32_update, readRangeM]
    · have hn : min remaining 256 ≥ 1 := by omega
      have hsplit : remaining = min remaining 256 + (remaining - min remaining 256) := by
        omega
      rw [Bootloader.crc32_go, if_neg h0]
      rw [ih (addr + min remaining 256) (remaining - min remaining 256) _ (by omega)]
      conv_rhs => rw [hsplit, readRangeM_add]
      simp [crc32_update, List.foldl_append]

/-! ## Claim theorems: boot selection, trigger, CRC equivalence, update engine -/

/-- Claim C8: `check_update_trigger` reports true exactly when the GPIO reads
low or the RAM sentinel equals `0x0FDA7E00`, and it always clears the sentinel
word to 0 (also when the GPIO alone fired or nothing fired). -/
theorem check_update_trigger_spec (gp2 : Bool) (flag : Nat) :
    ((check_update_trigger gp2 flag).1 = true ↔ gp2 = true ∨ flag = RAM_UPDATE_MAGIC) ∧
    (check_update_trigger gp2 flag).2 = 0 := by
  refine ⟨?_, rfl⟩
  simp [check_update_trigger]

/-- Claim C9: the bootloader's chunked, digest-based `compute_crc32` returns
the same value as the one-pass bitwise reference CRC-32 in crispy-common, for
every address and length over the same memory. -/
theorem compute_crc32_equiv (mem : Nat → Nat) (addr size : Nat) :
    Bootloader.compute_crc32 mem addr size = Common.compute_crc32 mem addr size := by
  unfold Bootloader.compute_crc32 Common.compute_crc32
  rw [crc32_go_eq mem size addr size _ le_rfl]
  rfl

/-- Claim C10: for every `BootData` and every `BankPair`, the decision returned
by `select_boot_bank_fsm` has `confirmed = 0` — even when `bd.confirmed = 1` —
so `BootDecision.apply_to` always clears a previously set confirmed flag. -/
theorem decision_confirmed_zero (bd : BootData) (banks : BankPair) :
    (select_boot_bank_fsm bd banks).confirmed = 0 ∧
    ((select_boot_bank_fsm bd banks).apply_to bd).confirmed = 0 := by
  have h : (select_boot_bank_fsm bd banks).confirmed = 0 := by
    unfold select_boot_bank_fsm BOOT_STRATEGIES
    cases h1 : banks.primary_validation.crc_valid <;>
      cases h2 : banks.fallback_validation.crc_valid <;>
        cases h3 : banks.primary_validation.basic_valid <;>
          cases h4 : banks.fallback_validation.basic_valid <;>
            simp [List.findSome?, try_boot_strategy, h1, h2, h3, h4]
  exact ⟨h, by simpa [BootDecision.apply_to] using h⟩

/-- Claim C6: the rollback pre-step fires exactly when
`boot_attempts ≥ 3 ∧ confirmed = 0`; with `confirmed = 1` a selection pass
never rolls back: when the primary bank validates, the decision keeps
`active_bank` and increments `boot_attempts` (a `u8` increment, so `% 256`)
instead of resetting it. -/
theorem no_rollback_when_confirmed (env : FlashEnv) (layout : MemoryLayout) (bd : BootData)
    (hconf : bd.confirmed = 1)
    (hval : validate_bank_with_crc env
        (if bd.active_bank = 0 then layout.fw_a else layout.fw_b)
        (bank_metadata bd bd.active_bank).1 (bank_metadata bd bd.active_bank).2 = true) :
    (∀ b : BootData, needs_rollback b = true ↔
        MAX_BOOT_ATTEMPTS ≤ b.boot_attempts ∧ b.confirmed = 0) ∧
    (select_boot_bank env bd layout).1
      = (if bd.active_bank = 0 then layout.fw_a else layout.fw_b) ∧
    (select_boot_bank env bd layout).2.active_bank = bd.active_bank ∧
    (select_boot_bank env bd layout).2.boot_attempts = (bd.boot_attempts + 1) % 256 := by
  have hnr : ¬(MAX_BOOT_ATTEMPTS ≤ bd.boot_attempts ∧ bd.confirmed = 0) := by
    rw [hconf]; simp
  refine ⟨fun b => by simp [needs_rollback], ?_, ?_, ?_⟩ <;>
    simp [select_boot_bank, hnr, hval]

/-- Witness for C6: a confirmed record with seven failed attempts and a
CRC-valid active bank keeps its bank and reaches eight attempts. -/
theorem no_rollback_when_confirmed_witness :
    (⟨0xB007DA7A, 0, 1, 7, 0, 1, 1, 2735817509, 2735817509, 8, 8⟩ : BootData).confirmed = 1 ∧
    (select_boot_bank ⟨fun _ => 0x20, BootData.default_new, 0x20000000, 0x20FFFFFF⟩
        ⟨0xB007DA7A, 0, 1, 7, 0, 1, 1, 2735817509, 2735817509, 8, 8⟩
        ⟨FW_A_ADDR, FW_B_ADDR⟩).2.active_bank
      = (⟨0xB007DA7A, 0, 1, 7, 0, 1, 1, 2735817509, 2735817509, 8, 8⟩ : BootData).active_bank :=
  ⟨by decide,
   (no_rollback_when_confirmed ⟨fun _ => 0x20, BootData.default_new, 0x20000000, 0x20FFFFFF⟩
      ⟨FW_A_ADDR, FW_B_ADDR⟩ ⟨0xB007DA7A, 0, 1, 7, 0, 1, 1, 2735817509, 2735817509, 8, 8⟩
      (by decide) (by decide)).2.2.1⟩

/-- Claim C4: `FinishUpdate` in Receiving with all bytes received but a CRC
mismatch replies `Ack(CrcError)` and goes to Idle leaving the flash state (and
hence the stored bank metadata) unchanged; with a byte-count mismatch it
replies `Ack(BadCommand)` and stays in the identical Receiving session. -/
theorem finish_update_failure (env : FlashEnv) (b addr sz crc ver br : Nat) :
    (br = sz → Bootloader.compute_crc32 env.mem addr sz ≠ crc →
      handle_finish_update env (UpdateState.Receiving b addr sz crc ver br)
        = (UpdateState.Idle, env, Response.Ack AckStatus.CrcError)) ∧
    (br ≠ sz →
      handle_finish_update env (UpdateState.Receiving b addr sz crc ver br)
        = (UpdateState.Receiving b addr sz crc ver br, env,
           Response.Ack AckStatus.BadCommand)) := by
  constructor
  · rintro rfl hne
    simp [handle_finish_update, hne]
  · intro hne
    simp [handle_finish_update, hne]

/-- Witness for C4: with eight bytes expected, seven received is rejected as
`BadCommand`; and eight-of-eight with a wrong CRC aborts with `CrcError`. -/
theorem finish_update_failure_witness :
    (7 : Nat) ≠ 8 ∧
    handle_finish_update ⟨fun _ => 0x20, BootData.default_new, 0x20000000, 0x20FFFFFF⟩
        (UpdateState.Receiving 0 FW_A_ADDR 8 2735817509 1 7)
      = (UpdateState.Receiving 0 FW_A_ADDR 8 2735817509 1 7,
         ⟨fun _ => 0x20, BootData.default_new, 0x20000000, 0x20FFFFFF⟩,
         Response.Ack AckStatus.BadCommand) :=
  ⟨by decide,
   (finish_update_failure ⟨fun _ => 0x20, BootData.default_new, 0x20000000, 0x20FFFFFF⟩
      0 FW_A_ADDR 8 2735817509 1 7).2 (by decide)⟩

/-- Claim C2: a `FinishUpdate` whose session received exactly `expected_size`
bytes and whose computed CRC matches commits BootData (bank's crc/size/version
set from the session, `active_bank = b`, `confirmed = 0`, `boot_attempts = 0`),
replies `Ack(Ok)`, transitions to Idle, and a subsequent `GetStatus` reports
`active_bank = b` and bank `b`'s version equal to the session version. -/
theorem finish_update_commit (env : FlashEnv) (b addr sz crc ver : Nat)
    (hb : b ≤ 1)
    (hcrc : Bootloader.compute_crc32 env.mem addr sz = crc) :
    (handle_finish_update env (UpdateState.Receiving b addr sz crc ver sz)).2.2
        = Response.Ack AckStatus.Ok ∧
    (handle_finish_update env (UpdateState.Receiving b addr sz crc ver sz)).1
        = UpdateState.Idle ∧
    (read_boot_data
        (handle_finish_update env (UpdateState.Receiving b addr sz crc ver sz)).2.1).active_bank
      = b ∧
    (read_boot_data
        (handle_finish_update env (UpdateState.Receiving b addr sz crc ver sz)).2.1).confirmed
      = 0 ∧
    (read_boot_data
        (handle_finish_update env (UpdateState.Receiving b addr sz crc ver sz)).2.1).boot_attempts
      = 0 ∧
    bank_metadata
        (read_boot_data
          (handle_finish_update env (UpdateState.Receiving b addr sz crc ver sz)).2.1) b
      = (crc, sz) ∧
    (if b = 0 then
        (read_boot_data
          (handle_finish_update env (UpdateState.Receiving b addr sz crc ver sz)).2.1).version_a
      else
        (read_boot_data
          (handle_finish_update env (UpdateState.Receiving b addr sz crc ver sz)).2.1).version_b)
      = ver ∧
    (handle_get_status
        (handle_finish_update env (UpdateState.Receiving b addr sz crc ver sz)).2.1
        UpdateState.Idle).2.2
      = Response.Status
          (read_boot_data
            (handle_finish_update env (UpdateState.Receiving b addr sz crc ver sz)).2.1).active_bank
          (read_boot_data
            (handle_finish_update env (UpdateState.Receiving b addr sz crc ver sz)).2.1).version_a
          (read_boot_data
            (handle_finish_update env (UpdateState.Receiving b addr sz crc ver sz)).2.1).version_b
          BootState.UpdateMode := by
  rcases (by omega : b = 0 ∨ b = 1) with rfl | rfl <;>
    by_cases hm : env.boot.magic = BOOT_DATA_MAGIC <;>
      simp [handle_finish_update, hcrc, read_boot_data, write_boot_data,
            handle_get_status, bank_metadata, BootData.default_new, hm]

/-- Witness for C2: committing eight `0x20` bytes to bank 0 succeeds. -/
theorem finish_update_commit_witness :
    Bootloader.compute_crc32 (fun _ => 0x20) FW_A_ADDR 8 = 2735817509 ∧
    (handle_finish_update ⟨fun _ => 0x20, BootData.default_new, 0x20000000, 0x20FFFFFF⟩
        (UpdateState.Receiving 0 FW_A_ADDR 8 2735817509 7 8)).2.2
      = Response.Ack AckStatus.Ok :=
  ⟨by decide,
   (finish_update_commit ⟨fun _ => 0x20, BootData.default_new, 0x20000000, 0x20FFFFFF⟩
      0 FW_A_ADDR 8 2735817509 7 (by decide) (by decide)).1⟩

/-- Claim C5: a `DataBlock{offset, data}` is accepted exactly when the state is
Receiving, `offset = bytes_received` and `bytes_received + |data| ≤
expected_size`; acceptance programs the `0xFF`-padded data at the bank offset
plus `bytes_received` (page-multiple length) and advances `bytes_received` by
`|data|` with `Ack(Ok)`; otherwise `Ack(BadState)` (not Receiving) or
`Ack(BadCommand)` is sent with the state unchanged. -/
theorem data_block_spec (env : FlashEnv) (offset : Nat) (data : List Nat)
    (b addr sz crc ver br : Nat)
    (hbytes : ∀ x ∈ data, x < 256) (haddr : FLASH_BASE ≤ addr) :
    handle_data_block env UpdateState.Idle offset data
      = (UpdateState.Idle, env, Response.Ack AckStatus.BadState) ∧
    ((handle_data_block env (UpdateState.Receiving b addr sz crc ver br) offset data).2.2
        = Response.Ack AckStatus.Ok ↔ offset = br ∧ br + data.length ≤ sz) ∧
    ((offset ≠ br ∨ sz < br + data.length) →
      handle_data_block env (UpdateState.Receiving b addr sz crc ver br) offset data
        = (UpdateState.Receiving b addr sz crc ver br, env,
           Response.Ack AckStatus.BadCommand)) ∧
    (offset = br → br + data.length ≤ sz →
      (handle_data_block env (UpdateState.Receiving b addr sz crc ver br) offset data).1
          = UpdateState.Receiving b addr sz crc ver (br + data.length) ∧
      readRangeM
          (handle_data_block env (UpdateState.Receiving b addr sz crc ver br) offset data).2.1.mem
          (addr + br)
          ((data.length + (FLASH_PAGE_SIZE - 1)) / FLASH_PAGE_SIZE * FLASH_PAGE_SIZE)
        = data ++ List.replicate
            ((data.length + (FLASH_PAGE_SIZE - 1)) / FLASH_PAGE_SIZE * FLASH_PAGE_SIZE
              - data.length) 0xFF) := by
  have hpad : data.length
      ≤ (data.length + (FLASH_PAGE_SIZE - 1)) / FLASH_PAGE_SIZE * FLASH_PAGE_SIZE := by
    simp only [FLASH_PAGE_SIZE]
    omega
  refine ⟨rfl, ?_, ?_, ?_⟩
  · constructor
    · intro hok
      by_cases h1 : offset = br
      · by_cases h2 : sz < br + data.length
        · exfalso
          simp [handle_data_block, h1, h2] at hok
        · exact ⟨h1, by omega⟩
      · exfalso
        simp [handle_data_block, h1] at hok
    · rintro ⟨rfl, h2⟩
      simp [handle_data_block, Nat.not_lt.mpr h2]
  · rintro (h1 | h2)
    · simp [handle_data_block, h1]
    · by_cases h1 : offset = br
      · simp [handle_data_block, h1, h2]
      · simp [handle_data_block, h1]
  · rintro rfl h2
    constructor
    · simp [handle_data_block, Nat.not_lt.mpr h2]
    · have hmem : (handle_data_block env (UpdateState.Receiving b addr sz crc ver offset)
          offset data).2.1.mem
        = programBytes env.mem (FLASH_BASE + (addr_to_offset addr + offset))
            (data ++ List.replicate
              ((data.length + (FLASH_PAGE_SIZE - 1)) / FLASH_PAGE_SIZE * FLASH_PAGE_SIZE
                - data.length) 0xFF) := by
        simp [handle_data_block, Nat.not_lt.mpr h2]
      rw [hmem]
      have haddr2 : FLASH_BASE + (addr_to_offset addr + offset) = addr + offset := by
        simp only [addr_to_offset]
        omega
      rw [haddr2]
      have hlen : (data ++ List.replicate
          ((data.length + (FLASH_PAGE_SIZE - 1)) / FLASH_PAGE_SIZE * FLASH_PAGE_SIZE
            - data.length) 0xFF).length
        = (data.length + (FLASH_PAGE_SIZE - 1)) / FLASH_PAGE_SIZE * FLASH_PAGE_SIZE := by
        simp only [List.length_append, List.length_replicate]
        omega
      have hbytes2 : ∀ x ∈ data ++ List.replicate
          ((data.length + (FLASH_PAGE_SIZE - 1)) / FLASH_PAGE_SIZE * FLASH_PAGE_SIZE
            - data.length) 0xFF, x < 256 := by
        intro x hx
        rcases List.mem_append.mp hx with hx | hx
        · exact hbytes x hx
        · have := List.eq_of_mem_replicate hx
          omega
      have hmain := readRangeM_programBytes
        (data ++ List.replicate
          ((data.length + (FLASH_PAGE_SIZE - 1)) / FLASH_PAGE_SIZE * FLASH_PAGE_SIZE
            - data.length) 0xFF)
        env.mem (addr + offset) hbytes2
      rw [hlen] at hmain
      exact hmain

/-- Witness for C5: a two-byte block at offset 0 of a fresh 8-byte session is
accepted, advances `bytes_received` to 2, and the padded page reads back. -/
theorem data_block_spec_witness :
    ((∀ x ∈ [0x11, 0x22], x < 256) ∧ FLASH_BASE ≤ FW_A_ADDR) ∧
    ((handle_data_block ⟨fun _ => 0x20, BootData.default_new, 0x20000000, 0x20FFFFFF⟩
        (UpdateState.Receiving 0 FW_A_ADDR 8 2735817509 1 0) 0 [0x11, 0x22]).2.2
      = Response.Ack AckStatus.Ok ↔ (0 : Nat) = 0 ∧ 0 + ([0x11, 0x22] : List Nat).length ≤ 8) :=
  ⟨⟨by decide, by decide⟩,
   (data_block_spec ⟨fun _ => 0x20, BootData.default_new, 0x20000000, 0x20FFFFFF⟩
      0 [0x11, 0x22] 0 FW_A_ADDR 8 2735817509 1 0 (by decide) (by decide)).2.1⟩

/-- Claim C7: `SetActiveBank{bank}` succeeds exactly when Idle, `bank ≤ 1`,
the target bank's stored size is non-zero and the recomputed CRC matches; on
success BootData is written with `active_bank = bank`, `confirmed = 0`,
`boot_attempts = 0` and `Ack(Ok)` is sent; an empty target yields
`Ack(BankInvalid)` and a CRC mismatch `Ack(CrcError)`, both leaving the flash
state unchanged. -/
theorem set_active_bank_spec (env : FlashEnv) (st : UpdateState) (bank : Nat) :
    ((handle_set_active_bank env st bank).2.2 = Response.Ack AckStatus.Ok ↔
      (st = UpdateState.Idle ∧ bank ≤ 1 ∧
       (if bank = 0 then (read_boot_data env).size_a else (read_boot_data env).size_b) ≠ 0 ∧
       Bootloader.compute_crc32 env.mem (if bank = 0 then FW_A_ADDR else FW_B_ADDR)
           (if bank = 0 then (read_boot_data env).size_a else (read_boot_data env).size_b)
         = (if bank = 0 then (read_boot_data env).crc_a else (read_boot_data env).crc_b))) ∧
    ((handle_set_active_bank env st bank).2.2 = Response.Ack AckStatus.Ok →
      handle_set_active_bank env st bank
        = (UpdateState.Idle,
           write_boot_data env
             { read_boot_data env with active_bank := bank, confirmed := 0,
                                       boot_attempts := 0 },
           Response.Ack AckStatus.Ok)) ∧
    (st = UpdateState.Idle → bank ≤ 1 →
      (if bank = 0 then (read_boot_data env).size_a else (read_boot_data env).size_b) = 0 →
      handle_set_active_bank env st bank
        = (st, env, Response.Ack AckStatus.BankInvalid)) ∧
    (st = UpdateState.Idle → bank ≤ 1 →
      (if bank = 0 then (read_boot_data env).size_a else (read_boot_data env).size_b) ≠ 0 →
      Bootloader.compute_crc32 env.mem (if bank = 0 then FW_A_ADDR else FW_B_ADDR)
          (if bank = 0 then (read_boot_data env).size_a else (read_boot_data env).size_b)
        ≠ (if bank = 0 then (read_boot_data env).crc_a else (read_boot_data env).crc_b) →
      handle_set_active_bank env st bank
        = (st, env, Response.Ack AckStatus.CrcError)) := by
  cases st with
  | Receiving b2 a2 s2 c2 v2 r2 =>
    refine ⟨?_, ?_, ?_, ?_⟩ <;> simp [handle_set_active_bank]
  | Idle =>
    by_cases hbk : 1 < bank
    · have hbk2 : ¬ bank ≤ 1 := by omega
      refine ⟨?_, ?_, ?_, ?_⟩ <;> simp [handle_set_active_bank, hbk, hbk2]
    · by_cases hsz : (if bank = 0 then (read_boot_data env).size_a
          else (read_boot_data env).size_b) = 0
      · refine ⟨?_, ?_, ?_, ?_⟩ <;> simp [handle_set_active_bank, hbk, hsz]
      · by_cases hcrc : Bootloader.compute_crc32 env.mem
            (if bank = 0 then FW_A_ADDR else FW_B_ADDR)
            (if bank = 0 then (read_boot_data env).size_a else (read_boot_data env).size_b)
          = (if bank = 0 then (read_boot_data env).crc_a else (read_boot_data env).crc_b)
        · refine ⟨?_, ?_, ?_, ?_⟩ <;>
            simp [handle_set_active_bank, hbk, hsz, hcrc]
          omega
        · refine ⟨?_, ?_, ?_, ?_⟩ <;>
            simp [handle_set_active_bank, hbk, hsz, hcrc]

/-- Witness for C7: switching to a valid, non-empty bank 0 succeeds. -/
theorem set_active_bank_spec_witness :
    (handle_set_active_bank
        ⟨fun _ => 0x20, ⟨0xB007DA7A, 1, 1, 2, 0, 5, 6, 2735817509, 0, 8, 0⟩,
         0x20000000, 0x20FFFFFF⟩
        UpdateState.Idle 0).2.2 = Response.Ack AckStatus.Ok ↔
      (UpdateState.Idle = UpdateState.Idle ∧ (0 : Nat) ≤ 1 ∧
       (if (0 : Nat) = 0 then
          (read_boot_data ⟨fun _ => 0x20, ⟨0xB007DA7A, 1, 1, 2, 0, 5, 6, 2735817509, 0, 8, 0⟩,
            0x20000000, 0x20FFFFFF⟩).size_a
        else
          (read_boot_data ⟨fun _ => 0x20, ⟨0xB007DA7A, 1, 1, 2, 0, 5, 6, 2735817509, 0, 8, 0⟩,
            0x20000000, 0x20FFFFFF⟩).size_b) ≠ 0 ∧
       Bootloader.compute_crc32
           (⟨fun _ => 0x20, ⟨0xB007DA7A, 1, 1, 2, 0, 5, 6, 2735817509, 0, 8, 0⟩,
             0x20000000, 0x20FFFFFF⟩ : FlashEnv).mem
           (if (0 : Nat) = 0 then FW_A_ADDR else FW_B_ADDR)
           (if (0 : Nat) = 0 then
              (read_boot_data ⟨fun _ => 0x20, ⟨0xB007DA7A, 1, 1, 2, 0, 5, 6, 2735817509, 0, 8, 0⟩,
                0x20000000, 0x20FFFFFF⟩).size_a
            else
              (read_boot_data ⟨fun _ => 0x20, ⟨0xB007DA7A, 1, 1, 2, 0, 5, 6, 2735817509, 0, 8, 0⟩,
                0x20000000, 0x20FFFFFF⟩).size_b)
         = (if (0 : Nat) = 0 then
              (read_boot_data ⟨fun _ => 0x20, ⟨0xB007DA7A, 1, 1, 2, 0, 5, 6, 2735817509, 0, 8, 0⟩,
                0x20000000, 0x20FFFFFF⟩).crc_a
            else
              (read_boot_data ⟨fun _ => 0x20, ⟨0xB007DA7A, 1, 1, 2, 0, 5, 6, 2735817509, 0, 8, 0⟩,
                0x20000000, 0x20FFFFFF⟩).crc_b)) :=
  (set_active_bank_spec
    ⟨fun _ => 0x20, ⟨0xB007DA7A, 1, 1, 2, 0, 5, 6, 2735817509, 0, 8, 0⟩,
     0x20000000, 0x20FFFFFF⟩
    UpdateState.Idle 0).1

/-- Counterexample refuting C1 as stated.  Part 1: `select_boot_bank_fsm` does
not apply the bank toggle of the rollback pre-step — for
`bd = {active_bank = 0, confirmed = 0, boot_attempts = 3}` with both banks
CRC-valid and the `BankPair` built from `bd.active_bank`, it returns
`active_bank = 0`, not the complement `1` that the claim requires.  Part 2:
even in `select_boot_bank`, "passes any validation" is too weak: with the
now-primary bank (bank 1 after the rollback toggle) passing only basic
validation while the old bank passes CRC validation, the decision returns the
old bank (`active_bank = 0`), not the complement. -/
theorem rollback_pre_step_counterexample :
    (needs_rollback ⟨0xB007DA7A, 0, 0, 3, 0, 1, 1, 2735817509, 2735817509, 8, 8⟩ = true ∧
     (select_boot_bank_fsm ⟨0xB007DA7A, 0, 0, 3, 0, 1, 1, 2735817509, 2735817509, 8, 8⟩
        ((BankPair.new 0 FW_A_ADDR FW_B_ADDR
            ⟨0xB007DA7A, 0, 0, 3, 0, 1, 1, 2735817509, 2735817509, 8, 8⟩).with_validation
          ⟨true, true⟩ ⟨true, true⟩)).active_bank = 0 ∧
     toggle_bank
        (⟨0xB007DA7A, 0, 0, 3, 0, 1, 1, 2735817509, 2735817509, 8, 8⟩ : BootData).active_bank
       = 1) ∧
    ((validate_bank ⟨fun _ => 0x20, BootData.default_new, 0x20000000, 0x20FFFFFF⟩
        FW_B_ADDR).isSome = true ∧
     validate_bank_with_crc ⟨fun _ => 0x20, BootData.default_new, 0x20000000, 0x20FFFFFF⟩
        FW_B_ADDR 0 8 = false ∧
     (select_boot_bank ⟨fun _ => 0x20, BootData.default_new, 0x20000000, 0x20FFFFFF⟩
        ⟨0xB007DA7A, 0, 0, 3, 0, 1, 1, 2735817509, 0, 8, 8⟩
        ⟨FW_A_ADDR, FW_B_ADDR⟩).2.active_bank = 0) := by
  decide

/-- Amended C1: on rollback (`boot_attempts ≥ 3`, `confirmed = 0`),
`select_boot_bank` toggles `active_bank` and resets `boot_attempts`, so its
decision is the complement bank with `boot_attempts = 1` whenever the
now-primary bank passes CRC validation (not merely any validation);
`select_boot_bank_fsm` applies only the attempts-reset half of the pre-step —
the toggle is its caller's duty when building the `BankPair` — so under
rollback it returns the pair's primary with `boot_attempts = 1` when that
primary is CRC-valid. -/
theorem rollback_pre_step_amended (env : FlashEnv) (layout : MemoryLayout)
    (bd : BootData) (banks : BankPair)
    (h3 : MAX_BOOT_ATTEMPTS ≤ bd.boot_attempts) (h0 : bd.confirmed = 0)
    (hval : validate_bank_with_crc env
        (if toggle_bank bd.active_bank = 0 then layout.fw_a else layout.fw_b)
        (bank_metadata bd (toggle_bank bd.active_bank)).1
        (bank_metadata bd (toggle_bank bd.active_bank)).2 = true)
    (hpc : banks.primary_validation.crc_valid = true) :
    (select_boot_bank env bd layout).2.active_bank = toggle_bank bd.active_bank ∧
    (select_boot_bank env bd layout).2.boot_attempts = 1 ∧
    (select_boot_bank env bd layout).1
      = (if toggle_bank bd.active_bank = 0 then layout.fw_a else layout.fw_b) ∧
    (select_boot_bank_fsm bd banks).active_bank = banks.primary.bank_id ∧
    (select_boot_bank_fsm bd banks).boot_attempts = 1 := by
  have hroll : MAX_BOOT_ATTEMPTS ≤ bd.boot_attempts ∧ bd.confirmed = 0 := ⟨h3, h0⟩
  have hnr : needs_rollback bd = true := by
    simp [needs_rollback, h3, h0]
  simp only [bank_metadata] at hval
  refine ⟨?_, ?_, ?_, ?_, ?_⟩ <;>
    simp [select_boot_bank, select_boot_bank_fsm, BOOT_STRATEGIES, List.findSome?,
          try_boot_strategy, bank_metadata, hroll, hnr, hpc, hval]

/-- Witness for the amended C1 at the spec's S4 scenario:
`bd = {active_bank = 0, confirmed = 0, boot_attempts = 3}` with both banks
CRC-valid yields the decision `{active_bank = 1, boot_attempts = 1}`. -/
theorem rollback_pre_step_amended_witness :
    (MAX_BOOT_ATTEMPTS
        ≤ (⟨0xB007DA7A, 0, 0, 3, 0, 1, 1, 2735817509, 2735817509, 8, 8⟩ : BootData).boot_attempts ∧
     toggle_bank
        (⟨0xB007DA7A, 0, 0, 3, 0, 1, 1, 2735817509, 2735817509, 8, 8⟩ : BootData).active_bank
       = 1) ∧
    ((select_boot_bank ⟨fun _ => 0x20, BootData.default_new, 0x20000000, 0x20FFFFFF⟩
        ⟨0xB007DA7A, 0, 0, 3, 0, 1, 1, 2735817509, 2735817509, 8, 8⟩
        ⟨FW_A_ADDR, FW_B_ADDR⟩).2.active_bank
      = toggle_bank
          (⟨0xB007DA7A, 0, 0, 3, 0, 1, 1, 2735817509, 2735817509, 8, 8⟩ : BootData).active_bank ∧
     (select_boot_bank ⟨fun _ => 0x20, BootData.default_new, 0x20000000, 0x20FFFFFF⟩
        ⟨0xB007DA7A, 0, 0, 3, 0, 1, 1, 2735817509, 2735817509, 8, 8⟩
        ⟨FW_A_ADDR, FW_B_ADDR⟩).2.boot_attempts = 1) :=
  ⟨⟨by decide, by decide⟩,
   ⟨(rollback_pre_step_amended ⟨fun _ => 0x20, BootData.default_new, 0x20000000, 0x20FFFFFF⟩
      ⟨FW_A_ADDR, FW_B_ADDR⟩
      ⟨0xB007DA7A, 0, 0, 3, 0, 1, 1, 2735817509, 2735817509, 8, 8⟩
      ((BankPair.new 0 FW_A_ADDR FW_B_ADDR
          ⟨0xB007DA7A, 0, 0, 3, 0, 1, 1, 2735817509, 2735817509, 8, 8⟩).with_validation
        ⟨true, true⟩ ⟨true, true⟩)
      (by decide) (by decide) (by decide) (by decide)).1,
    (rollback_pre_step_amended ⟨fun _ => 0x20, BootData.default_new, 0x20000000, 0x20FFFFFF⟩
      ⟨FW_A_ADDR, FW_B_ADDR⟩
      ⟨0xB007DA7A, 0, 0, 3, 0, 1, 1, 2735817509, 2735817509, 8, 8⟩
      ((BankPair.new 0 FW_A_ADDR FW_B_ADDR
          ⟨0xB007DA7A, 0, 0, 3, 0, 1, 1, 2735817509, 2735817509, 8, 8⟩).with_validation
        ⟨true, true⟩ ⟨true, true⟩)
      (by decide) (by decide) (by decide) (by decide)).2.1⟩⟩

/-- Claim C3: COBS round-trip — `decode (encode x) = x` for every byte
sequence; `encode x` contains no `0x00` byte except the single trailing
delimiter; and the heapless pair agrees with the std pair whenever the
encoding fits the encode buffer (`N`) and `x` fits the decode buffer (`M`),
so the heapless round-trip holds for every `x` that fits the buffers. -/
theorem cobs_roundtrip (x : List Nat) (N M : Nat)
    (hN : (encode x).length ≤ N) (hM : x.length ≤ M) :
    decode (encode x) = some x ∧
    0 ∉ (encode x).dropLast ∧
    (encode x).getLast? = some 0 ∧
    encode_heapless N x = encode x ∧
    decode_heapless M (encode x) = some x ∧
    decode_heapless M (encode_heapless N x) = some x := by
  obtain ⟨body, hbody, hnz⟩ := encodeFrom_no_zero x [] (by simp)
  have henc := encode_eq_encodeFrom x
  have hne : ¬ (encode x).isEmpty = true := by
    rw [henc, hbody]
    simp
  have hgo : decodeGo (encode x).length (encode x) [] = some x := by
    rw [henc]
    have h := decodeGo_encodeFrom x (encodeFrom [] x).length [] [] (by simp) le_rfl
    simpa using h
  have hdec : decode (encode x) = some x := by
    rw [decode, if_neg hne]
    exact hgo
  have hheap : encode_heapless N x = encode x := encode_heapless_eq N x hN
  have hdecH : decode_heapless M (encode x) = some x := by
    rw [decode_heapless, if_neg hne]
    exact decodeGoH_eq (encode x).length (encode x) [] x M hgo hM
  refine ⟨hdec, ?_, ?_, hheap, hdecH, by rw [hheap]; exact hdecH⟩
  · rw [henc, hbody, List.dropLast_concat]
    exact hnz
  · rw [henc, hbody]
    exact List.getLast?_concat _

/-- Witness for C3 on the byte sequence `[0x11, 0x22, 0x00, 0x33]` with
64-byte buffers. -/
theorem cobs_roundtrip_witness :
    ((encode [0x11, 0x22, 0x00, 0x33]).length ≤ 64 ∧
     ([0x11, 0x22, 0x00, 0x33] : List Nat).length ≤ 64) ∧
    decode (encode [0x11, 0x22, 0x00, 0x33]) = some [0x11, 0x22, 0x00, 0x33] :=
  ⟨⟨by decide, by decide⟩,
   (cobs_roundtrip [0x11, 0x22, 0x00, 0x33] 64 64 (by decide) (by decide)).1⟩
